import Mathlib

/-!
Shallow embedding of the snake-game simulation core (`src/main.go`).

Timestamps and durations are modelled as `Int` milliseconds: `time.Time`'s
zero value is `0` (`IsZero` becomes `= 0`), `time.Since(t)` at time `now`
becomes `now - t`, `now.After(t)` becomes `t < now`, `100*time.Millisecond`
becomes `100`, `1*time.Second` becomes `1000`, `4*time.Second` becomes `4000`.

The random source `rand.Intn(w)` / `rand.Intn(h)` is modelled as a stream
(a list) of pairs `Fin gridW × Fin gridH`, each element being one draw of
the two bounded random integers; `spawnFood`'s retry loop walks the stream.
The Go loop retries forever; the list-based model stops (placing nothing)
when the stream is exhausted, which is the only divergence from the source.

Keyboard polling (`ebiten.IsKeyPressed`) is modelled by an `Input` record of
booleans, one per key read by `Game.Update`.
-/

namespace SnakeGame

/-- `screenWidth` constant (src/main.go line 26). -/
def screenWidth : Nat := 320

/-- `screenHeight` constant (src/main.go line 27). -/
def screenHeight : Nat := 240

/-- `gridSize` constant, tile size in pixels (src/main.go line 28). -/
def gridSize : Nat := 24

/-- `initialLen` constant (src/main.go line 29). -/
def initialLen : Nat := 3

/-- Grid width in cells, `screenWidth/gridSize` = 13, as used in the
wall check and in `spawnFood`. -/
def gridW : Nat := screenWidth / gridSize

/-- Grid height in cells, `screenHeight/gridSize` = 10. -/
def gridH : Nat := screenHeight / gridSize

/-- `Point` struct (src/main.go lines 32-34). -/
structure Point where
  x : Int
  y : Int
deriving DecidableEq, Inhabited, Repr

/-- `Food` struct (src/main.go lines 36-40). -/
structure Food where
  pos : Point
  spawned : Int
  lifetime : Int
deriving DecidableEq, Inhabited, Repr

/-- The simulation-relevant fields of the `Game` struct
(src/main.go lines 42-56); the three image fields are rendering-only
and omitted. -/
structure Game where
  snake : List Point
  dir : Point
  foods : List Food
  grow : Bool
  gameOver : Bool
  lastMove : Int
  score : Int
  lives : Int
  nextFoodTime : Int
deriving DecidableEq, Inhabited, Repr

/-- One poll of the keys `Game.Update` reads: the four arrows and space. -/
structure Input where
  up : Bool
  down : Bool
  left : Bool
  right : Bool
  space : Bool
deriving DecidableEq, Inhabited, Repr

/-- A poll with no key pressed. -/
def noInput : Input := ⟨false, false, false, false, false⟩

/-- The direction-input block of `Game.Update` (src/main.go lines 68-77):
an if/else-if chain, each arrow accepted only when the current direction
is not its exact reverse. -/
def applyInput (g : Game) (inp : Input) : Game :=
  if inp.up ∧ g.dir.y ≠ 1 then { g with dir := ⟨0, -1⟩ }
  else if inp.down ∧ g.dir.y ≠ -1 then { g with dir := ⟨0, 1⟩ }
  else if inp.left ∧ g.dir.x ≠ 1 then { g with dir := ⟨-1, 0⟩ }
  else if inp.right ∧ g.dir.x ≠ -1 then { g with dir := ⟨1, 0⟩ }
  else g

/-- `Game.init` (src/main.go lines 256-267): resets snake, direction,
grow flag, game-over flag, foods and both timers; leaves score and lives
untouched. `now` stands for the two `time.Now()` calls. -/
def Game.init (g : Game) (now : Int) : Game :=
  { g with
    snake := (List.range initialLen).map
      (fun i => ⟨((screenWidth / gridSize / 2 : Nat) : Int) - (i : Int),
                 ((screenHeight / gridSize / 2 : Nat) : Int)⟩)
    dir := ⟨1, 0⟩
    grow := false
    gameOver := false
    foods := []
    lastMove := now
    nextFoodTime := now }

/-- The lives-decrement block that `Game.Update` runs on a wall or self
collision (src/main.go lines 90-96 and 101-107): decrement lives, then
reset the session if lives remain, else flag game over. -/
def collide (g : Game) (now : Int) : Game :=
  let g' : Game := { g with lives := g.lives - 1 }
  if 0 < g'.lives then g'.init now else { g' with gameOver := true }

/-- `Game.spawnFood` (src/main.go lines 269-297): walk the random stream
until a cell free of the snake and of existing food is drawn, then append
a food item with a 4-second lifetime. The Go loop draws forever; here an
exhausted stream places nothing. -/
def spawnFood (g : Game) (now : Int) (rng : List (Fin gridW × Fin gridH)) : Game :=
  match rng with
  | [] => g
  | c :: rest =>
    let pos : Point := ⟨((c.1 : Nat) : Int), ((c.2 : Nat) : Int)⟩
    if pos ∈ g.snake ∨ pos ∈ g.foods.map Food.pos then
      spawnFood g now rest
    else
      { g with foods := g.foods ++ [⟨pos, now, 4000⟩] }

/-- The candidate new head `head + dir` (src/main.go lines 85-86);
`g.snake[0]` is modelled by `headI` (every reachable playing state has a
non-empty snake). -/
def newHeadOf (g : Game) : Point :=
  ⟨g.snake.headI.x + g.dir.x, g.snake.headI.y + g.dir.y⟩

/-- The move/eat/trim block of `Game.Update` (src/main.go lines 111-131):
prepend the new head, consume the first food item under it (scoring 10 and
setting the grow flag), then drop the tail unless growing. -/
def moveAndEat (g : Game) (newHead : Point) : Game :=
  let g1 : Game := { g with snake := newHead :: g.snake }
  let g2 : Game :=
    match g1.foods.findIdx? (fun f => f.pos == newHead) with
    | some i => { g1 with grow := true, score := g1.score + 10,
                          foods := g1.foods.eraseIdx i }
    | none => g1
  if !g2.grow then { g2 with snake := g2.snake.dropLast }
  else { g2 with grow := false }

/-- The expiry block of `Game.Update` (src/main.go lines 133-141): keep
exactly the food items with `now - spawned < lifetime`. -/
def expireFood (g : Game) (now : Int) : Game :=
  { g with foods := g.foods.filter (fun f => decide (now - f.spawned < f.lifetime)) }

/-- The food-spawn block of `Game.Update` (src/main.go lines 143-153):
when below the cap of 4 and the deadline is unset (`IsZero`) or strictly
passed (`now.After`), spawn, then set the next deadline to `now` while
still under the cap, else to `now + 1s`. -/
def spawnPhase (g : Game) (now : Int) (rng : List (Fin gridW × Fin gridH)) : Game :=
  if g.foods.length < 4 then
    if g.nextFoodTime = 0 ∨ g.nextFoodTime < now then
      let g2 := spawnFood g now rng
      if g2.foods.length < 4 then { g2 with nextFoodTime := now }
      else { g2 with nextFoodTime := now + 1000 }
    else g
  else g

/-- The body of `Game.Update` after the tick gate (src/main.go lines
85-155), applied to a state whose `lastMove` has already been set to
`now`: wall check, self-collision check, then move/eat, expiry and spawn. -/
def stepDue (g : Game) (now : Int) (rng : List (Fin gridW × Fin gridH)) : Game :=
  let newHead := newHeadOf g
  if newHead.x < 0 ∨ newHead.y < 0 ∨ (gridW : Int) ≤ newHead.x ∨ (gridH : Int) ≤ newHead.y then
    collide g now
  else if newHead ∈ g.snake then
    collide g now
  else
    spawnPhase (expireFood (moveAndEat g newHead) now) now rng

/-- `Game.Update` (src/main.go lines 58-156): in game over, space restarts
(lives 3, score 0, re-init); otherwise apply direction input, return if
less than 100ms elapsed since `lastMove`, else record `now` and run the
due step. -/
def Game.Update (g : Game) (inp : Input) (now : Int)
    (rng : List (Fin gridW × Fin gridH)) : Game :=
  if g.gameOver then
    if inp.space then Game.init { g with lives := 3, score := 0 } now else g
  else
    let g1 := applyInput g inp
    if now - g1.lastMove < 100 then g1
    else stepDue { g1 with lastMove := now } now rng

/-- The spec's `step(now)` entry point: an `Update` poll carrying no input
intent (no key pressed). -/
def Game.step (g : Game) (now : Int)
    (rng : List (Fin gridW × Fin gridH)) : Game :=
  Game.Update g noInput now rng

/-- The state `main` (src/main.go lines 332-340) hands to the game loop:
lives 3, score 0, then `init` at start-up time `t0`. -/
def mainInit (t0 : Int) : Game :=
  Game.init { snake := [], dir := ⟨0, 0⟩, foods := [], grow := false,
              gameOver := false, lastMove := 0, score := 0, lives := 3,
              nextFoodTime := 0 } t0

/-- States reachable from start-up by any sequence of `Update` polls, with
arbitrary key input, times and random draws. -/
inductive Reachable : Game → Prop where
  | base (t0 : Int) : Reachable (mainInit t0)
  | step (g : Game) (inp : Input) (now : Int)
      (rng : List (Fin gridW × Fin gridH)) :
      Reachable g → Reachable (g.Update inp now rng)

/-- A cell lies inside the grid `[0, gridW) × [0, gridH)`. -/
def InGrid (p : Point) : Prop :=
  0 ≤ p.x ∧ p.x < (gridW : Int) ∧ 0 ≤ p.y ∧ p.y < (gridH : Int)

/-- The four headings of the spec's `setHeading` interface. -/
inductive Heading where
  | up
  | down
  | left
  | right
deriving DecidableEq, Repr

/-- Unit delta of a heading, matching the direction block's assignments. -/
def Heading.delta : Heading → Point
  | .up => ⟨0, -1⟩
  | .down => ⟨0, 1⟩
  | .left => ⟨-1, 0⟩
  | .right => ⟨1, 0⟩

/-- The key poll corresponding to a single heading intent. -/
def Heading.input : Heading → Input
  | .up => ⟨true, false, false, false, false⟩
  | .down => ⟨false, true, false, false, false⟩
  | .left => ⟨false, false, true, false, false⟩
  | .right => ⟨false, false, false, true, false⟩

/-- The spec's `setHeading(requested)` intent: the direction-input block
run on the poll that presses exactly the requested arrow. -/
def setHeading (g : Game) (h : Heading) : Game :=
  applyInput g h.input

/-! ### Basic lemmas about the phases -/

theorem applyInput_fields (g : Game) (inp : Input) :
    (applyInput g inp).snake = g.snake ∧ (applyInput g inp).foods = g.foods ∧
    (applyInput g inp).grow = g.grow ∧ (applyInput g inp).gameOver = g.gameOver ∧
    (applyInput g inp).lastMove = g.lastMove ∧ (applyInput g inp).score = g.score ∧
    (applyInput g inp).lives = g.lives ∧
    (applyInput g inp).nextFoodTime = g.nextFoodTime := by
  unfold applyInput
  repeat' split
  all_goals exact ⟨rfl, rfl, rfl, rfl, rfl, rfl, rfl, rfl⟩

theorem applyInput_noInput (g : Game) : applyInput g noInput = g := by
  simp [applyInput, noInput]

theorem init_snake (g : Game) (now : Int) :
    (Game.init g now).snake = [⟨6, 5⟩, ⟨5, 5⟩, ⟨4, 5⟩] := rfl

theorem spawnFood_eq_or (g : Game) (now : Int) :
    ∀ rng : List (Fin gridW × Fin gridH),
      spawnFood g now rng = g ∨
      ∃ p : Point, InGrid p ∧ p ∉ g.snake ∧ p ∉ g.foods.map Food.pos ∧
        spawnFood g now rng = { g with foods := g.foods ++ [⟨p, now, 4000⟩] }
  | [] => Or.inl rfl
  | c :: rest => by
    rw [spawnFood]
    split
    · exact spawnFood_eq_or g now rest
    · next hno =>
      right
      refine ⟨⟨((c.1 : Nat) : Int), ((c.2 : Nat) : Int)⟩, ?_, ?_, ?_, rfl⟩
      · refine ⟨Int.ofNat_nonneg _, ?_, Int.ofNat_nonneg _, ?_⟩
        · show ((c.1 : Nat) : Int) < ((gridW : Nat) : Int)
          exact_mod_cast c.1.isLt
        · show ((c.2 : Nat) : Int) < ((gridH : Nat) : Int)
          exact_mod_cast c.2.isLt
      · exact fun hmem => hno (Or.inl hmem)
      · exact fun hmem => hno (Or.inr hmem)

theorem moveAndEat_eq_eat (g : Game) (nh : Point) (i : Nat)
    (hfi : List.findIdx? (fun f => f.pos == nh) g.foods = some i) :
    moveAndEat g nh = { g with snake := nh :: g.snake, grow := false,
                               score := g.score + 10, foods := g.foods.eraseIdx i } := by
  unfold moveAndEat
  simp [hfi]

theorem moveAndEat_eq_trim (g : Game) (nh : Point)
    (hfi : List.findIdx? (fun f => f.pos == nh) g.foods = none)
    (hgrow : g.grow = false) :
    moveAndEat g nh = { g with snake := (nh :: g.snake).dropLast, grow := false } := by
  unfold moveAndEat
  simp [hfi, hgrow]

theorem moveAndEat_eq_grow (g : Game) (nh : Point)
    (hfi : List.findIdx? (fun f => f.pos == nh) g.foods = none)
    (hgrow : g.grow = true) :
    moveAndEat g nh = { g with snake := nh :: g.snake, grow := false } := by
  unfold moveAndEat
  simp [hfi, hgrow]

theorem moveAndEat_cases (g : Game) (nh : Point) :
    (∃ i, moveAndEat g nh = { g with snake := nh :: g.snake, grow := false,
                                     score := g.score + 10,
                                     foods := g.foods.eraseIdx i }) ∨
    moveAndEat g nh = { g with snake := (nh :: g.snake).dropLast, grow := false } ∨
    moveAndEat g nh = { g with snake := nh :: g.snake, grow := false } := by
  cases hfi : List.findIdx? (fun f => f.pos == nh) g.foods with
  | some i => exact Or.inl ⟨i, moveAndEat_eq_eat g nh i hfi⟩
  | none =>
    cases hgrow : g.grow with
    | false => exact Or.inr (Or.inl (moveAndEat_eq_trim g nh hfi hgrow))
    | true => exact Or.inr (Or.inr (moveAndEat_eq_grow g nh hfi hgrow))

theorem expireFood_fields (g : Game) (now : Int) :
    (expireFood g now).snake = g.snake ∧ (expireFood g now).dir = g.dir ∧
    (expireFood g now).grow = g.grow ∧ (expireFood g now).gameOver = g.gameOver ∧
    (expireFood g now).lastMove = g.lastMove ∧ (expireFood g now).score = g.score ∧
    (expireFood g now).lives = g.lives ∧
    (expireFood g now).nextFoodTime = g.nextFoodTime :=
  ⟨rfl, rfl, rfl, rfl, rfl, rfl, rfl, rfl⟩

theorem expireFood_foods_sublist (g : Game) (now : Int) :
    (expireFood g now).foods.Sublist g.foods :=
  List.filter_sublist _

theorem spawnPhase_spec (g : Game) (now : Int) (rng : List (Fin gridW × Fin gridH)) :
    (¬ (g.foods.length < 4 ∧ (g.nextFoodTime = 0 ∨ g.nextFoodTime < now)) →
      spawnPhase g now rng = g) ∧
    (g.foods.length < 4 → (g.nextFoodTime = 0 ∨ g.nextFoodTime < now) →
      spawnPhase g now rng =
        { spawnFood g now rng with
          nextFoodTime :=
            if (spawnFood g now rng).foods.length < 4 then now else now + 1000 }) := by
  constructor
  · intro h
    unfold spawnPhase
    split
    · next h4 =>
      split
      · next hd => exact absurd ⟨h4, hd⟩ h
      · rfl
    · rfl
  · intro h4 hd
    unfold spawnPhase
    rw [if_pos h4, if_pos hd]
    dsimp only
    split <;> rfl

/-! ### The inductive state invariant -/

/-- Invariant of every reachable state: while playing the snake has
pairwise-distinct cells, length at least 3 and at least one life; lives
are never negative; the food set holds at most 4 items with
pairwise-distinct, in-grid positions. -/
def Inv (g : Game) : Prop :=
  (g.gameOver = false → g.snake.Nodup ∧ 3 ≤ g.snake.length ∧ 1 ≤ g.lives) ∧
  0 ≤ g.lives ∧
  g.foods.length ≤ 4 ∧
  (g.foods.map Food.pos).Nodup ∧
  ∀ f ∈ g.foods, InGrid f.pos

theorem Inv_init (g : Game) (now : Int) (h : 1 ≤ g.lives) : Inv (Game.init g now) := by
  refine ⟨fun _ => ⟨?_, ?_, h⟩, le_trans zero_le_one h, ?_, ?_, ?_⟩
  · rw [init_snake]; decide
  · rw [init_snake]; decide
  · show ([] : List Food).length ≤ 4; decide
  · show (([] : List Food).map Food.pos).Nodup; decide
  · intro f hf; exact absurd hf (List.not_mem_nil f)

theorem collide_eq_or (g : Game) (now : Int) :
    (0 < g.lives - 1 ∧ collide g now = Game.init { g with lives := g.lives - 1 } now) ∨
    (g.lives - 1 ≤ 0 ∧ collide g now = { g with lives := g.lives - 1, gameOver := true }) := by
  unfold collide
  dsimp only
  split
  · next h => exact Or.inl ⟨h, rfl⟩
  · next h => exact Or.inr ⟨Int.not_lt.mp h, rfl⟩

theorem Inv_collide (g : Game) (now : Int) (inv : Inv g) (hgo : g.gameOver = false) :
    Inv (collide g now) := by
  have hl : 1 ≤ g.lives := (inv.1 hgo).2.2
  rcases collide_eq_or g now with ⟨hpos, heq⟩ | ⟨hneg, heq⟩ <;> rw [heq]
  · exact Inv_init _ now (show (1 : Int) ≤ g.lives - 1 by omega)
  · refine ⟨fun hgo' => ?_, ?_, inv.2.2⟩
    · simp at hgo'
    · show (0 : Int) ≤ g.lives - 1
      omega

theorem Inv_applyInput (g : Game) (inp : Input) (inv : Inv g) :
    Inv (applyInput g inp) := by
  obtain ⟨h1, h2, _, h4, _, _, h7, _⟩ := applyInput_fields g inp
  unfold Inv
  rw [h1, h2, h4, h7]
  exact inv

theorem Inv_spawnPhase (g : Game) (now : Int) (rng : List (Fin gridW × Fin gridH))
    (inv : Inv g) : Inv (spawnPhase g now rng) := by
  obtain ⟨hno, hyes⟩ := spawnPhase_spec g now rng
  by_cases hc : g.foods.length < 4 ∧ (g.nextFoodTime = 0 ∨ g.nextFoodTime < now)
  · rw [hyes hc.1 hc.2]
    rcases spawnFood_eq_or g now rng with heq | ⟨p, hgrid, _, hpos, heq⟩ <;> rw [heq]
    · exact inv
    · refine ⟨fun hgo => inv.1 hgo, inv.2.1, ?_, ?_, ?_⟩
      · show (g.foods ++ [Food.mk p now 4000]).length ≤ 4
        rw [List.length_append, List.length_singleton]
        omega
      · show ((g.foods ++ [Food.mk p now 4000]).map Food.pos).Nodup
        rw [List.map_append, List.map_singleton]
        refine List.Nodup.append inv.2.2.2.1 (List.nodup_singleton p) ?_
        intro a ha hb
        rw [List.mem_singleton] at hb
        subst hb
        exact hpos ha
      · intro f hf
        rcases List.mem_append.mp hf with hf | hf
        · exact inv.2.2.2.2 f hf
        · rw [List.mem_singleton] at hf
          subst hf
          exact hgrid
  · rw [hno hc]; exact inv

theorem Inv_expireFood (g : Game) (now : Int) (inv : Inv g) : Inv (expireFood g now) := by
  have hs := expireFood_foods_sublist g now
  exact ⟨fun hgo => inv.1 hgo, inv.2.1, le_trans hs.length_le inv.2.2.1,
         List.Nodup.sublist (hs.map Food.pos) inv.2.2.2.1,
         fun f hf => inv.2.2.2.2 f (hs.subset hf)⟩

theorem Inv_moveAndEat (g : Game) (nh : Point) (inv : Inv g)
    (hgo : g.gameOver = false) (hnh : nh ∉ g.snake) : Inv (moveAndEat g nh) := by
  obtain ⟨hnodup, hlen, hlive⟩ := inv.1 hgo
  have hcons : (nh :: g.snake).Nodup := List.nodup_cons.mpr ⟨hnh, hnodup⟩
  rcases moveAndEat_cases g nh with ⟨i, heq⟩ | heq | heq <;> rw [heq]
  · have hsub := List.eraseIdx_sublist g.foods i
    refine ⟨fun _ => ⟨hcons, ?_, hlive⟩, inv.2.1, le_trans hsub.length_le inv.2.2.1,
            List.Nodup.sublist (hsub.map Food.pos) inv.2.2.2.1,
            fun f hf => inv.2.2.2.2 f (hsub.subset hf)⟩
    show 3 ≤ (nh :: g.snake).length
    rw [List.length_cons]
    omega
  · refine ⟨fun _ => ⟨List.Nodup.sublist (List.dropLast_sublist _) hcons, ?_, hlive⟩,
            inv.2.1, inv.2.2⟩
    show 3 ≤ (nh :: g.snake).dropLast.length
    rw [List.length_dropLast, List.length_cons]
    omega
  · refine ⟨fun _ => ⟨hcons, ?_, hlive⟩, inv.2.1, inv.2.2⟩
    show 3 ≤ (nh :: g.snake).length
    rw [List.length_cons]
    omega

theorem Inv_stepDue (g : Game) (now : Int) (rng : List (Fin gridW × Fin gridH))
    (inv : Inv g) (hgo : g.gameOver = false) : Inv (stepDue g now rng) := by
  unfold stepDue
  dsimp only
  split
  · exact Inv_collide g now inv hgo
  · split
    · exact Inv_collide g now inv hgo
    · next hmem =>
        exact Inv_spawnPhase _ now rng
          (Inv_expireFood _ now (Inv_moveAndEat g _ inv hgo hmem))

theorem Inv_update (g : Game) (inp : Input) (now : Int)
    (rng : List (Fin gridW × Fin gridH)) (inv : Inv g) :
    Inv (g.Update inp now rng) := by
  unfold Game.Update
  split
  · split
    · exact Inv_init _ now (show (1 : Int) ≤ 3 by norm_num)
    · exact inv
  · next hgo =>
    have hgo' : g.gameOver = false := by simpa using hgo
    dsimp only
    split
    · exact Inv_applyInput g inp inv
    · refine Inv_stepDue _ now rng (Inv_applyInput g inp inv) ?_
      show (applyInput g inp).gameOver = false
      rw [(applyInput_fields g inp).2.2.2.1]
      exact hgo'

theorem reachable_Inv (g : Game) (h : Reachable g) : Inv g := by
  induction h with
  | base t0 => exact Inv_init _ t0 (by decide)
  | step g inp now rng _ ih => exact Inv_update g inp now rng ih

/-! ### Characterizations of a due step -/

theorem moveAndEat_fields (g : Game) (nh : Point) :
    (moveAndEat g nh).dir = g.dir ∧ (moveAndEat g nh).gameOver = g.gameOver ∧
    (moveAndEat g nh).lastMove = g.lastMove ∧ (moveAndEat g nh).lives = g.lives ∧
    (moveAndEat g nh).nextFoodTime = g.nextFoodTime := by
  rcases moveAndEat_cases g nh with ⟨i, heq⟩ | heq | heq <;> rw [heq] <;>
    exact ⟨rfl, rfl, rfl, rfl, rfl⟩

theorem spawnFood_fields (g : Game) (now : Int) (rng : List (Fin gridW × Fin gridH)) :
    (spawnFood g now rng).snake = g.snake ∧ (spawnFood g now rng).dir = g.dir ∧
    (spawnFood g now rng).grow = g.grow ∧
    (spawnFood g now rng).gameOver = g.gameOver ∧
    (spawnFood g now rng).lastMove = g.lastMove ∧
    (spawnFood g now rng).score = g.score ∧ (spawnFood g now rng).lives = g.lives := by
  rcases spawnFood_eq_or g now rng with heq | ⟨p, _, _, _, heq⟩ <;> rw [heq] <;>
    exact ⟨rfl, rfl, rfl, rfl, rfl, rfl, rfl⟩

theorem spawnPhase_fields (g : Game) (now : Int) (rng : List (Fin gridW × Fin gridH)) :
    (spawnPhase g now rng).snake = g.snake ∧ (spawnPhase g now rng).dir = g.dir ∧
    (spawnPhase g now rng).grow = g.grow ∧
    (spawnPhase g now rng).gameOver = g.gameOver ∧
    (spawnPhase g now rng).lastMove = g.lastMove ∧
    (spawnPhase g now rng).score = g.score ∧ (spawnPhase g now rng).lives = g.lives := by
  obtain ⟨hno, hyes⟩ := spawnPhase_spec g now rng
  by_cases hc : g.foods.length < 4 ∧ (g.nextFoodTime = 0 ∨ g.nextFoodTime < now)
  · rw [hyes hc.1 hc.2]
    obtain ⟨f1, f2, f3, f4, f5, f6, f7⟩ := spawnFood_fields g now rng
    exact ⟨f1, f2, f3, f4, f5, f6, f7⟩
  · rw [hno hc]; exact ⟨rfl, rfl, rfl, rfl, rfl, rfl, rfl⟩

theorem stepDue_eq_collide (g : Game) (now : Int) (rng : List (Fin gridW × Fin gridH))
    (h : (newHeadOf g).x < 0 ∨ (newHeadOf g).y < 0 ∨ (gridW : Int) ≤ (newHeadOf g).x ∨
         (gridH : Int) ≤ (newHeadOf g).y ∨ newHeadOf g ∈ g.snake) :
    stepDue g now rng = collide g now := by
  unfold stepDue
  dsimp only
  by_cases hw : (newHeadOf g).x < 0 ∨ (newHeadOf g).y < 0 ∨
      (gridW : Int) ≤ (newHeadOf g).x ∨ (gridH : Int) ≤ (newHeadOf g).y
  · rw [if_pos hw]
  · have hm : newHeadOf g ∈ g.snake := by tauto
    rw [if_neg hw, if_pos hm]

theorem stepDue_eq_normal (g : Game) (now : Int) (rng : List (Fin gridW × Fin gridH))
    (h : ¬ ((newHeadOf g).x < 0 ∨ (newHeadOf g).y < 0 ∨
            (gridW : Int) ≤ (newHeadOf g).x ∨ (gridH : Int) ≤ (newHeadOf g).y ∨
            newHeadOf g ∈ g.snake)) :
    stepDue g now rng = spawnPhase (expireFood (moveAndEat g (newHeadOf g)) now) now rng := by
  have hw : ¬ ((newHeadOf g).x < 0 ∨ (newHeadOf g).y < 0 ∨
      (gridW : Int) ≤ (newHeadOf g).x ∨ (gridH : Int) ≤ (newHeadOf g).y) := by tauto
  have hm : newHeadOf g ∉ g.snake := by tauto
  unfold stepDue
  dsimp only
  rw [if_neg hw, if_neg hm]

theorem Update_noInput_due (g : Game) (now : Int) (rng : List (Fin gridW × Fin gridH))
    (hgo : g.gameOver = false) (hdue : 100 ≤ now - g.lastMove) :
    g.Update noInput now rng = stepDue { g with lastMove := now } now rng := by
  unfold Game.Update
  rw [if_neg (by simp [hgo])]
  dsimp only
  rw [applyInput_noInput]
  rw [if_neg (by omega)]

theorem stepDue_lastMove (g : Game) (now : Int) (rng : List (Fin gridW × Fin gridH))
    (h : g.lastMove = now) : (stepDue g now rng).lastMove = now := by
  unfold stepDue
  dsimp only
  split
  · rcases collide_eq_or g now with ⟨_, heq⟩ | ⟨_, heq⟩ <;> rw [heq]
    · rfl
    · exact h
  · split
    · rcases collide_eq_or g now with ⟨_, heq⟩ | ⟨_, heq⟩ <;> rw [heq]
      · rfl
      · exact h
    · rw [(spawnPhase_fields _ now rng).2.2.2.2.1, (expireFood_fields _ now).2.2.2.2.1,
         (moveAndEat_fields g _).2.2.1]
      exact h

theorem not_inGrid_iff (p : Point) :
    (p.x < 0 ∨ p.y < 0 ∨ (gridW : Int) ≤ p.x ∨ (gridH : Int) ≤ p.y) ↔ ¬ InGrid p := by
  unfold InGrid
  omega

/-! ### Claims -/

/-- C3: in every state reachable by any sequence of `Update` polls, while
the phase is Playing (`gameOver = false`) the snake's cells are pairwise
distinct and its length is at least the initial length 3. -/
theorem C3_snake_invariant (g : Game) (h : Reachable g)
    (hgo : g.gameOver = false) : g.snake.Nodup ∧ 3 ≤ g.snake.length :=
  ⟨((reachable_Inv g h).1 hgo).1, ((reachable_Inv g h).1 hgo).2.1⟩

theorem C3_snake_invariant_witness :
    (mainInit 0).snake.Nodup ∧ 3 ≤ (mainInit 0).snake.length :=
  C3_snake_invariant (mainInit 0) (Reachable.base 0) rfl

/-- C4: in every reachable state the food set has at most 4 items (so its
cardinality is between 0 and 4), no two food items share a position, and
every food position lies inside the 13×10 grid; moreover any item added by
`spawnFood` has, at the moment it is spawned, a position free of every
snake cell. -/
theorem C4_food_invariant :
    (∀ g : Game, Reachable g →
      g.foods.length ≤ 4 ∧ (g.foods.map Food.pos).Nodup ∧
      ∀ f ∈ g.foods, InGrid f.pos) ∧
    (∀ (g : Game) (now : Int) (rng : List (Fin gridW × Fin gridH)),
      ∀ f ∈ (spawnFood g now rng).foods, f ∉ g.foods → f.pos ∉ g.snake) := by
  constructor
  · intro g h
    exact (reachable_Inv g h).2.2
  · intro g now rng f hf hnew
    rcases spawnFood_eq_or g now rng with heq | ⟨p, _, hsnake, _, heq⟩
    · rw [heq] at hf
      exact absurd hf hnew
    · rw [heq] at hf
      rcases List.mem_append.mp hf with hmem | hmem
      · exact absurd hmem hnew
      · rw [List.mem_singleton] at hmem
        subst hmem
        exact hsnake

theorem C4_food_invariant_witness :
    ((mainInit 0).foods.length ≤ 4 ∧ ((mainInit 0).foods.map Food.pos).Nodup ∧
      ∀ f ∈ (mainInit 0).foods, InGrid f.pos) ∧
    (Food.mk ⟨0, 0⟩ 5 4000).pos ∉ (mainInit 0).snake :=
  ⟨C4_food_invariant.1 (mainInit 0) (Reachable.base 0),
   C4_food_invariant.2 (mainInit 0) 5 [(⟨0, by decide⟩, ⟨0, by decide⟩)]
     (Food.mk ⟨0, 0⟩ 5 4000) (by decide) (by decide)⟩

/-- C10: in every reachable Playing state lives is at least 1, lives is
never negative, and the collision handler flags GameOver exactly when the
decremented lives reach 0. -/
theorem C10_lives_invariant (g : Game) (h : Reachable g) :
    (g.gameOver = false → 1 ≤ g.lives) ∧ 0 ≤ g.lives ∧
    (∀ now : Int, g.gameOver = false →
      ((collide g now).gameOver = true ↔ g.lives - 1 = 0)) := by
  have inv := reachable_Inv g h
  refine ⟨fun hgo => (inv.1 hgo).2.2, inv.2.1, ?_⟩
  intro now hgo
  have hl : 1 ≤ g.lives := (inv.1 hgo).2.2
  rcases collide_eq_or g now with ⟨hpos, heq⟩ | ⟨hneg, heq⟩ <;> rw [heq]
  · constructor
    · intro hfalse
      simp [Game.init] at hfalse
    · intro h0
      exact absurd hpos (by omega)
  · exact ⟨fun _ => by omega, fun _ => rfl⟩

theorem C10_lives_invariant_witness :
    1 ≤ (mainInit 0).lives ∧
    ((collide (mainInit 0) 0).gameOver = true ↔ (mainInit 0).lives - 1 = 0) :=
  ⟨(C10_lives_invariant (mainInit 0) (Reachable.base 0)).1 rfl,
   (C10_lives_invariant (mainInit 0) (Reachable.base 0)).2.2 0 rfl⟩

/-- C8: the `step` entry point (an `Update` poll carrying no input intent)
leaves the state unchanged when less than 100 ms have elapsed since the
last simulation step or when the phase is GameOver; when the step does
run, the scheduler's reference point `lastMove` is reset to `now`. -/
theorem C8_step_gate (g : Game) (now : Int) (rng : List (Fin gridW × Fin gridH)) :
    (g.gameOver = true → g.step now rng = g) ∧
    (g.gameOver = false → now - g.lastMove < 100 → g.step now rng = g) ∧
    (g.gameOver = false → 100 ≤ now - g.lastMove →
      (g.step now rng).lastMove = now) := by
  refine ⟨?_, ?_, ?_⟩
  · intro hgo
    unfold Game.step Game.Update
    rw [if_pos hgo]
    simp [noInput]
  · intro hgo hlt
    unfold Game.step Game.Update
    rw [if_neg (by simp [hgo])]
    dsimp only
    rw [applyInput_noInput, if_pos hlt]
  · intro hgo hge
    unfold Game.step Game.Update
    rw [if_neg (by simp [hgo])]
    dsimp only
    rw [applyInput_noInput, if_neg (by omega)]
    exact stepDue_lastMove _ now rng rfl

theorem C8_step_gate_witness :
    (mainInit 0).step 50 [] = mainInit 0 ∧
    (((mainInit 0).step 100 []).lastMove = 100) :=
  ⟨(C8_step_gate (mainInit 0) 50 []).2.1 rfl (by decide),
   (C8_step_gate (mainInit 0) 100 []).2.2 rfl (by decide)⟩

/-- C9: when the current direction is one of the four heading deltas,
submitting the exact opposite heading intent leaves the direction
unchanged, and submitting any non-reverse heading intent is accepted (the
direction becomes the requested delta). -/
theorem C9_reversal (g : Game) (h : Heading)
    (hdir : g.dir = Heading.up.delta ∨ g.dir = Heading.down.delta ∨
            g.dir = Heading.left.delta ∨ g.dir = Heading.right.delta) :
    (h.delta = ⟨-g.dir.x, -g.dir.y⟩ → (setHeading g h).dir = g.dir) ∧
    (h.delta ≠ ⟨-g.dir.x, -g.dir.y⟩ → (setHeading g h).dir = h.delta) := by
  rcases hdir with hd | hd | hd | hd <;> cases h <;>
    simp [setHeading, applyInput, Heading.input, Heading.delta, hd]

theorem C9_reversal_witness :
    (setHeading (mainInit 0) Heading.left).dir = (mainInit 0).dir ∧
    (setHeading (mainInit 0) Heading.up).dir = Heading.up.delta :=
  ⟨(C9_reversal (mainInit 0) Heading.left
      (Or.inr (Or.inr (Or.inr rfl)))).1 (by decide),
   (C9_reversal (mainInit 0) Heading.up
      (Or.inr (Or.inr (Or.inr rfl)))).2 (by decide)⟩

/-- A state at the spawn gate with the deadline set to 5 and an empty food
set; used to exercise the boundary `now = deadline`. -/
def gC5 : Game := { mainInit 0 with nextFoodTime := 5 }

/-- A one-draw random stream proposing the free cell (0,0). -/
def rngC5 : List (Fin gridW × Fin gridH) := [(⟨0, by decide⟩, ⟨0, by decide⟩)]

/-- C5 counterexample: with fewer than 4 food items and `now` exactly equal
to the next-spawn deadline, the code attempts no spawn (a spawn attempt
would have succeeded and grown the food set), because `now.After(deadline)`
is a strict comparison. -/
theorem C5_counterexample :
    gC5.foods.length < 4 ∧ gC5.nextFoodTime = 5 ∧
    (spawnFood gC5 5 rngC5).foods.length = gC5.foods.length + 1 ∧
    spawnPhase gC5 5 rngC5 = gC5 := by decide

/-- C5 (amended): during the spawn block, a spawn is attempted exactly
when the food set has fewer than 4 items and the next-spawn deadline is
unset (zero) or strictly earlier than `now`; at `now` equal to the
deadline no spawn is attempted. -/
theorem C5_spawn_gate (g : Game) (now : Int) (rng : List (Fin gridW × Fin gridH)) :
    (g.foods.length < 4 → (g.nextFoodTime = 0 ∨ g.nextFoodTime < now) →
      (spawnPhase g now rng).foods = (spawnFood g now rng).foods) ∧
    (¬ (g.foods.length < 4 ∧ (g.nextFoodTime = 0 ∨ g.nextFoodTime < now)) →
      spawnPhase g now rng = g) := by
  obtain ⟨hno, hyes⟩ := spawnPhase_spec g now rng
  exact ⟨fun h4 hd => by rw [hyes h4 hd], fun hc => hno hc⟩

theorem C5_spawn_gate_witness :
    (spawnPhase (mainInit 0) 1 rngC5).foods = (spawnFood (mainInit 0) 1 rngC5).foods ∧
    spawnPhase gC5 5 rngC5 = gC5 :=
  ⟨(C5_spawn_gate (mainInit 0) 1 rngC5).1 (by decide) (Or.inl (by decide)),
   (C5_spawn_gate gC5 5 rngC5).2 (by decide)⟩

/-- Four draws naming the distinct free cells (0,0), (1,0), (2,0), (3,0). -/
def burstRng : List (Fin gridW × Fin gridH) :=
  [(⟨0, by decide⟩, ⟨0, by decide⟩), (⟨1, by decide⟩, ⟨0, by decide⟩),
   (⟨2, by decide⟩, ⟨0, by decide⟩), (⟨3, by decide⟩, ⟨0, by decide⟩)]

/-- First eligible spawn-block run, from the start-up state. -/
def burst1 : Game := spawnPhase (mainInit 0) 1 burstRng

/-- Second consecutive eligible spawn-block run. -/
def burst2 : Game := spawnPhase burst1 2 burstRng

/-- Third consecutive eligible spawn-block run. -/
def burst3 : Game := spawnPhase burst2 3 burstRng

/-- Fourth consecutive eligible spawn-block run, reaching the cap. -/
def burst4 : Game := spawnPhase burst3 4 burstRng

/-- The capped state after one food item has been removed again. -/
def burst4Eaten : Game := { burst4 with foods := burst4.foods.dropLast }

/-- C6: after every successful spawn the next-spawn deadline is `now` while
the set is still below the cap 4 and `now + 1s` otherwise; consequently,
from an empty food set with no deadline set, 4 consecutive eligible
spawn-block runs all spawn with no deadline delay, and once below the cap
again a 5th spawn stays deferred while no more than 1 second has passed. -/
theorem C6_spawn_deadline :
    (∀ (g : Game) (now : Int) (rng : List (Fin gridW × Fin gridH)),
      g.foods.length < 4 → (g.nextFoodTime = 0 ∨ g.nextFoodTime < now) →
      (spawnFood g now rng).foods.length = g.foods.length + 1 →
      (spawnPhase g now rng).nextFoodTime =
        if (spawnFood g now rng).foods.length < 4 then now else now + 1000) ∧
    (burst1.foods.length = 1 ∧ burst1.nextFoodTime = 1 ∧
     burst2.foods.length = 2 ∧ burst2.nextFoodTime = 2 ∧
     burst3.foods.length = 3 ∧ burst3.nextFoodTime = 3 ∧
     burst4.foods.length = 4 ∧ burst4.nextFoodTime = 4 + 1000) ∧
    (∀ now : Int, now ≤ 4 + 1000 →
      spawnPhase burst4Eaten now burstRng = burst4Eaten) := by
  refine ⟨?_, by decide, ?_⟩
  · intro g now rng h4 hd _
    rw [(spawnPhase_spec g now rng).2 h4 hd]
  · intro now hle
    refine (spawnPhase_spec burst4Eaten now burstRng).1 ?_
    rintro ⟨_, hd | hd⟩
    · exact absurd hd (by decide)
    · have hdl : burst4Eaten.nextFoodTime = 1004 := by decide
      rw [hdl] at hd
      omega

theorem C6_spawn_deadline_witness :
    ((spawnPhase (mainInit 0) 1 burstRng).nextFoodTime =
      if (spawnFood (mainInit 0) 1 burstRng).foods.length < 4 then 1 else 1 + 1000) ∧
    spawnPhase burst4Eaten 1004 burstRng = burst4Eaten :=
  ⟨C6_spawn_deadline.1 (mainInit 0) 1 burstRng (by decide) (Or.inl (by decide))
      (by decide),
   C6_spawn_deadline.2.2 1004 (by decide)⟩

/-- A Playing state about to self-collide (heading Left into the neck)
with 3 lives and one food item on the board. -/
def gC2 : Game := { mainInit 0 with dir := ⟨-1, 0⟩, foods := [Food.mk ⟨9, 9⟩ 0 4000] }

/-- C2 counterexample: a due colliding step with lives still remaining
does mutate the food set — the session reset clears it — contradicting
"the food set is not mutated in that step". -/
theorem C2_counterexample :
    newHeadOf gC2 ∈ gC2.snake ∧ gC2.gameOver = false ∧ gC2.lives = 3 ∧
    (100 : Int) - gC2.lastMove = 100 ∧
    gC2.foods ≠ [] ∧ (gC2.Update noInput 100 []).foods = [] := by decide

/-- C2 (amended): in a due colliding step (candidate head on the snake or
out of the 13×10 grid) lives drop by exactly 1 and the score is never
mutated; with lives remaining the session resets (phase stays Playing,
snake/direction re-initialized, food set cleared as part of the reset),
otherwise the phase becomes GameOver with snake and food set unchanged. -/
theorem C2_collision (g : Game) (now : Int) (rng : List (Fin gridW × Fin gridH))
    (hgo : g.gameOver = false) (hdue : 100 ≤ now - g.lastMove)
    (hcol : newHeadOf g ∈ g.snake ∨ ¬ InGrid (newHeadOf g)) :
    (g.Update noInput now rng).lives = g.lives - 1 ∧
    (g.Update noInput now rng).score = g.score ∧
    (0 < g.lives - 1 →
      (g.Update noInput now rng).gameOver = false ∧
      (g.Update noInput now rng).snake = [⟨6, 5⟩, ⟨5, 5⟩, ⟨4, 5⟩] ∧
      (g.Update noInput now rng).dir = ⟨1, 0⟩ ∧
      (g.Update noInput now rng).foods = []) ∧
    (g.lives - 1 ≤ 0 →
      (g.Update noInput now rng).gameOver = true ∧
      (g.Update noInput now rng).snake = g.snake ∧
      (g.Update noInput now rng).foods = g.foods) := by
  have hcol' : (newHeadOf g).x < 0 ∨ (newHeadOf g).y < 0 ∨
      (gridW : Int) ≤ (newHeadOf g).x ∨ (gridH : Int) ≤ (newHeadOf g).y ∨
      newHeadOf g ∈ g.snake := by
    rcases hcol with hm | hng
    · exact Or.inr (Or.inr (Or.inr (Or.inr hm)))
    · rcases (not_inGrid_iff _).mpr hng with hh | hh | hh | hh
      · exact Or.inl hh
      · exact Or.inr (Or.inl hh)
      · exact Or.inr (Or.inr (Or.inl hh))
      · exact Or.inr (Or.inr (Or.inr (Or.inl hh)))
  have hU : g.Update noInput now rng = collide { g with lastMove := now } now := by
    rw [Update_noInput_due g now rng hgo hdue]
    exact stepDue_eq_collide _ now rng hcol'
  rw [hU]
  rcases collide_eq_or { g with lastMove := now } now with ⟨hpos, heq⟩ | ⟨hneg, heq⟩ <;>
    rw [heq]
  · have hpos' : 0 < g.lives - 1 := hpos
    exact ⟨rfl, rfl, fun _ => ⟨rfl, init_snake _ _, rfl, rfl⟩,
           fun hle => absurd hpos' (by omega)⟩
  · have hneg' : g.lives - 1 ≤ 0 := hneg
    exact ⟨rfl, rfl, fun hlt => absurd hneg' (by omega),
           fun _ => ⟨rfl, rfl, rfl⟩⟩

theorem C2_collision_witness :
    (gC2.Update noInput 100 []).lives = gC2.lives - 1 ∧
    (gC2.Update noInput 100 []).score = gC2.score ∧
    (gC2.Update noInput 100 []).gameOver = false ∧
    (gC2.Update noInput 100 []).snake = [⟨6, 5⟩, ⟨5, 5⟩, ⟨4, 5⟩] := by
  have h := C2_collision gC2 100 [] rfl (by decide) (Or.inl (by decide))
  exact ⟨h.1, h.2.1, (h.2.2.1 (by decide)).1, (h.2.2.1 (by decide)).2.1⟩

theorem mem_expireFood_fresh (X : Game) (now : Int) (f : Food)
    (hf : f ∈ (expireFood X now).foods) : now - f.spawned < f.lifetime := by
  have h := List.mem_filter.mp hf
  simpa using h.2

theorem mem_expireFood_of (X : Game) (now : Int) (f : Food) (hf : f ∈ X.foods)
    (hfresh : now - f.spawned < f.lifetime) : f ∈ (expireFood X now).foods :=
  List.mem_filter.mpr ⟨hf, by simpa using hfresh⟩

/-- A Playing state about to self-collide on its last life, holding a
food item spawned at time 0 that is stale at time 5000. -/
def gC7 : Game :=
  { mainInit 0 with dir := ⟨-1, 0⟩, lives := 1, foods := [Food.mk ⟨9, 9⟩ 0 4000] }

/-- C7 counterexample: a due step does run at time 5000 while a food item
has been present for 5000 ms ≥ its 4000 ms lifetime, yet the step (a
collision that ends the session) leaves the stale item in the food set —
and `gameOver` then blocks every later removal. -/
theorem C7_counterexample :
    gC7.gameOver = false ∧ (100 : Int) ≤ 5000 - gC7.lastMove ∧
    Food.mk ⟨9, 9⟩ 0 4000 ∈ gC7.foods ∧
    (5000 : Int) - (Food.mk ⟨9, 9⟩ 0 4000).spawned ≥ (Food.mk ⟨9, 9⟩ 0 4000).lifetime ∧
    Food.mk ⟨9, 9⟩ 0 4000 ∈ (gC7.Update noInput 5000 []).foods ∧
    (gC7.Update noInput 5000 []).gameOver = true := by decide

/-- C7 (amended): in a due step that is not a collision, every food item
still present afterwards satisfies `now - spawnedAt < lifetime` (so items
stale by ≥ 4 s are removed); food strictly fresher than its lifetime is
never removed by the expiry pass; a collision step with lives remaining
clears the food set (removing stale items with it), while a collision step
that ends the session leaves the food set unchanged, stale items
included. -/
theorem C7_expiry (g : Game) (now : Int) (rng : List (Fin gridW × Fin gridH))
    (f : Food) :
    (¬ ((newHeadOf g).x < 0 ∨ (newHeadOf g).y < 0 ∨
        (gridW : Int) ≤ (newHeadOf g).x ∨ (gridH : Int) ≤ (newHeadOf g).y ∨
        newHeadOf g ∈ g.snake) →
      f ∈ (stepDue g now rng).foods → now - f.spawned < f.lifetime) ∧
    (f ∈ g.foods → now - f.spawned < f.lifetime → f ∈ (expireFood g now).foods) ∧
    (0 < g.lives - 1 →
      ((newHeadOf g).x < 0 ∨ (newHeadOf g).y < 0 ∨
        (gridW : Int) ≤ (newHeadOf g).x ∨ (gridH : Int) ≤ (newHeadOf g).y ∨
        newHeadOf g ∈ g.snake) →
      (stepDue g now rng).foods = []) ∧
    (g.lives - 1 ≤ 0 →
      ((newHeadOf g).x < 0 ∨ (newHeadOf g).y < 0 ∨
        (gridW : Int) ≤ (newHeadOf g).x ∨ (gridH : Int) ≤ (newHeadOf g).y ∨
        newHeadOf g ∈ g.snake) →
      (stepDue g now rng).foods = g.foods) := by
  refine ⟨?_, fun hf hfresh => mem_expireFood_of g now f hf hfresh, ?_, ?_⟩
  · intro hnc hf
    rw [stepDue_eq_normal g now rng hnc] at hf
    obtain ⟨hno, hyes⟩ :=
      spawnPhase_spec (expireFood (moveAndEat g (newHeadOf g)) now) now rng
    by_cases hc : (expireFood (moveAndEat g (newHeadOf g)) now).foods.length < 4 ∧
        ((expireFood (moveAndEat g (newHeadOf g)) now).nextFoodTime = 0 ∨
          (expireFood (moveAndEat g (newHeadOf g)) now).nextFoodTime < now)
    · rw [hyes hc.1 hc.2] at hf
      have hf' : f ∈ (spawnFood (expireFood (moveAndEat g (newHeadOf g)) now)
          now rng).foods := hf
      rcases spawnFood_eq_or (expireFood (moveAndEat g (newHeadOf g)) now) now rng
        with heq | ⟨p, _, _, _, heq⟩ <;> rw [heq] at hf'
      · exact mem_expireFood_fresh _ now f hf'
      · rcases List.mem_append.mp hf' with hmem | hmem
        · exact mem_expireFood_fresh _ now f hmem
        · rw [List.mem_singleton] at hmem
          subst hmem
          show now - now < 4000
          omega
    · rw [hno hc] at hf
      exact mem_expireFood_fresh _ now f hf
  · intro hpos hcol
    rw [stepDue_eq_collide g now rng hcol]
    rcases collide_eq_or g now with ⟨_, heq⟩ | ⟨hneg, heq⟩
    · rw [heq]; rfl
    · exact absurd hpos (by omega)
  · intro hneg hcol
    rw [stepDue_eq_collide g now rng hcol]
    rcases collide_eq_or g now with ⟨hpos, heq⟩ | ⟨_, heq⟩
    · exact absurd hneg (by omega)
    · rw [heq]

theorem C7_expiry_witness :
    (Food.mk ⟨9, 9⟩ 0 4000 ∈
        (expireFood { mainInit 0 with foods := [Food.mk ⟨9, 9⟩ 0 4000] } 100).foods) ∧
    (stepDue { gC2 with lastMove := 100 } 100 []).foods = [] :=
  ⟨(C7_expiry { mainInit 0 with foods := [Food.mk ⟨9, 9⟩ 0 4000] } 100 []
      (Food.mk ⟨9, 9⟩ 0 4000)).2.1 (by decide) (by decide),
   (C7_expiry { gC2 with lastMove := 100 } 100 []
      (Food.mk ⟨9, 9⟩ 0 4000)).2.2.1 (by decide)
      (Or.inr (Or.inr (Or.inr (Or.inr (by decide)))))⟩

/-- The default initial configuration with a single food item at (7,5),
spawned at time `s0`: Scenario A's starting state. -/
def scenarioA (t0 s0 : Int) : Game :=
  { mainInit t0 with foods := [Food.mk ⟨7, 5⟩ s0 4000] }

/-- Scenario A's state just after the tick gate records `now`. -/
def scenarioAStep (t0 s0 now : Int) : Game :=
  { scenarioA t0 s0 with lastMove := now }

/-- Scenario A's state after the move/eat block: head advanced onto the
food, score raised, the eaten item erased. -/
def scenarioAMoved (t0 s0 now : Int) : Game :=
  { scenarioAStep t0 s0 now with
    snake := ⟨7, 5⟩ :: (scenarioAStep t0 s0 now).snake
    grow := false
    score := (scenarioAStep t0 s0 now).score + 10
    foods := (scenarioAStep t0 s0 now).foods.eraseIdx 0 }

/-- C1: from the default 13×10 configuration (snake [(6,5),(5,5),(4,5)],
heading Right) with a food item at (7,5), one `Update` poll after at least
100 ms yields snake [(7,5),(6,5),(5,5),(4,5)], removes that food item from
the food set, and sets the score to 10. -/
theorem C1_scenarioA (t0 s0 now : Int) (rng : List (Fin gridW × Fin gridH))
    (helapsed : 100 ≤ now - t0) :
    ((scenarioA t0 s0).Update noInput now rng).snake =
        [⟨7, 5⟩, ⟨6, 5⟩, ⟨5, 5⟩, ⟨4, 5⟩] ∧
    Food.mk ⟨7, 5⟩ s0 4000 ∉ ((scenarioA t0 s0).Update noInput now rng).foods ∧
    ((scenarioA t0 s0).Update noInput now rng).score = 10 := by
  have hU : (scenarioA t0 s0).Update noInput now rng =
      stepDue (scenarioAStep t0 s0 now) now rng :=
    Update_noInput_due (scenarioA t0 s0) now rng rfl
      (by rw [show (scenarioA t0 s0).lastMove = t0 from rfl]; omega)
  rw [hU]
  have hnc : ¬ ((newHeadOf (scenarioAStep t0 s0 now)).x < 0 ∨
      (newHeadOf (scenarioAStep t0 s0 now)).y < 0 ∨
      (gridW : Int) ≤ (newHeadOf (scenarioAStep t0 s0 now)).x ∨
      (gridH : Int) ≤ (newHeadOf (scenarioAStep t0 s0 now)).y ∨
      newHeadOf (scenarioAStep t0 s0 now) ∈ (scenarioAStep t0 s0 now).snake) := by
    rw [show newHeadOf (scenarioAStep t0 s0 now) = ⟨7, 5⟩ from rfl,
        show (scenarioAStep t0 s0 now).snake = [⟨6, 5⟩, ⟨5, 5⟩, ⟨4, 5⟩] from rfl]
    decide
  rw [stepDue_eq_normal _ now rng hnc,
      show newHeadOf (scenarioAStep t0 s0 now) = ⟨7, 5⟩ from rfl]
  have hME : moveAndEat (scenarioAStep t0 s0 now) ⟨7, 5⟩ = scenarioAMoved t0 s0 now :=
    moveAndEat_eq_eat _ _ 0 rfl
  rw [hME]
  have hEF : expireFood (scenarioAMoved t0 s0 now) now = scenarioAMoved t0 s0 now := rfl
  rw [hEF]
  obtain ⟨s1, _, _, _, _, s6, _⟩ := spawnPhase_fields (scenarioAMoved t0 s0 now) now rng
  refine ⟨?_, ?_, ?_⟩
  · rw [s1]; rfl
  · intro hmem
    obtain ⟨hno, hyes⟩ := spawnPhase_spec (scenarioAMoved t0 s0 now) now rng
    by_cases hc : (scenarioAMoved t0 s0 now).foods.length < 4 ∧
        ((scenarioAMoved t0 s0 now).nextFoodTime = 0 ∨
          (scenarioAMoved t0 s0 now).nextFoodTime < now)
    · rw [hyes hc.1 hc.2] at hmem
      have hmem' : Food.mk ⟨7, 5⟩ s0 4000 ∈
          (spawnFood (scenarioAMoved t0 s0 now) now rng).foods := hmem
      rcases spawnFood_eq_or (scenarioAMoved t0 s0 now) now rng
        with heq | ⟨p, _, hsnake, _, heq⟩ <;> rw [heq] at hmem'
      · exact List.not_mem_nil _ hmem'
      · rcases List.mem_append.mp hmem' with hm2 | hm2
        · exact List.not_mem_nil _ hm2
        · rw [List.mem_singleton] at hm2
          obtain ⟨hp, -, -⟩ := Food.mk.inj hm2
          cases hp
          exact hsnake (List.mem_cons_self _ _)
    · rw [hno hc] at hmem
      exact List.not_mem_nil _ hmem
  · rw [s6]
    show (0 : Int) + 10 = 10
    norm_num

theorem C1_scenarioA_witness :
    ((scenarioA 0 0).Update noInput 100 []).snake =
        [⟨7, 5⟩, ⟨6, 5⟩, ⟨5, 5⟩, ⟨4, 5⟩] ∧
    Food.mk ⟨7, 5⟩ 0 4000 ∉ ((scenarioA 0 0).Update noInput 100 []).foods ∧
    ((scenarioA 0 0).Update noInput 100 []).score = 10 :=
  C1_scenarioA 0 0 100 [] (by decide)

end SnakeGame
